import Mathlib

/-!
Shallow embedding of the request instrumentation and trust-resolution
pipeline of the template-go-chi repository.

Go strings are modelled as Lean strings (the repository only manipulates
ASCII header values and addresses, where Go's byte indexing and Lean's
character indexing agree).  Fallible Go functions returning (T, error)
are modelled as Except String T.  The standard-library collaborators the
code calls (net/netip address parsing, net.SplitHostPort,
net/textproto canonical header keys, http.MaxBytesReader, the chi
middleware helpers, github.com/google/uuid) are embedded from their
sources as well, since the repository's behaviour depends on them.
-/

deriving instance DecidableEq for Except

/-! ## Go string helpers -/

/-- ASCII lower-casing of one character (strings.ToLower restricted to the
ASCII range used by this program). -/
def asciiLowerChar (c : Char) : Char :=
  if 'A' ≤ c ∧ c ≤ 'Z' then Char.ofNat (c.toNat + 32) else c

/-- ASCII upper-casing of one character. -/
def asciiUpperChar (c : Char) : Char :=
  if 'a' ≤ c ∧ c ≤ 'z' then Char.ofNat (c.toNat - 32) else c

/-- strings.ToLower (ASCII fragment). -/
def goToLower (s : String) : String :=
  ⟨s.data.map asciiLowerChar⟩

/-- Characters of a list up to (excluding) the first occurrence of c.
strings.SplitN(s, sep, 2)[0] for a one-character separator. -/
def takeUntilChar (cs : List Char) (c : Char) : List Char :=
  match cs with
  | [] => []
  | d :: rest => if d = c then [] else d :: takeUntilChar rest c

/-- strings.SplitN(value, ",", 2)[0]: the part of the string before the
first comma (the whole string when no comma occurs). -/
def goSplitN2First (value : String) : String :=
  ⟨takeUntilChar value.data ','⟩

/-- Index of the first occurrence of c, if any. -/
def firstIndexOf (cs : List Char) (c : Char) : Option Nat :=
  match cs with
  | [] => none
  | d :: rest =>
      if d = c then some 0
      else (firstIndexOf rest c).map (· + 1)

/-- Index of the last occurrence of c, if any. -/
def lastIndexOf (cs : List Char) (c : Char) : Option Nat :=
  match cs with
  | [] => none
  | d :: rest =>
      match lastIndexOf rest c with
      | some i => some (i + 1)
      | none => if d = c then some 0 else none

/-! ## net/netip address model

An address is the parsed value of netip.ParseAddr: a 32-bit value for
IPv4, a 128-bit value for IPv6, plus a zone string (empty when absent).
-/

structure Addr where
  is4 : Bool
  val : Nat
  zone : String
deriving Repr, DecidableEq

/-- netip.Addr.BitLen for valid addresses. -/
def Addr.bitLen (a : Addr) : Nat := if a.is4 then 32 else 128

/-- The IPv4 field loop of netip.parseIPv4: chars still to read, current
octet value, digits seen in the current octet, octets completed, octets
accumulated. -/
def parseIPv4Loop : List Char → Nat → Nat → Nat → List Nat → Except String (List Nat)
  | [], val, _, pos, fields =>
      if pos < 3 then .error "IPv4 address too short"
      else .ok (fields ++ [val])
  | c :: rest, val, digLen, pos, fields =>
      if '0' ≤ c ∧ c ≤ '9' then
        if digLen = 1 ∧ val = 0 then .error "IPv4 field has octet with leading zero"
        else
          let val' := val * 10 + (c.toNat - 48)
          if val' > 255 then .error "IPv4 field has value greater than 255"
          else parseIPv4Loop rest val' (digLen + 1) pos fields
      else if c = '.' then
        if digLen = 0 ∨ rest = [] then .error "IPv4 field must have at least one digit"
        else if pos = 3 then .error "IPv4 address too long"
        else parseIPv4Loop rest 0 0 (pos + 1) (fields ++ [val])
      else .error "unexpected character"

/-- netip.parseIPv4. -/
def parseIPv4 (s : String) : Except String Addr :=
  match parseIPv4Loop s.data 0 0 0 [] with
  | .error e => .error e
  | .ok fields =>
      .ok ⟨true, fields.foldl (fun acc b => acc * 256 + b) 0, ""⟩

def isHexChar (c : Char) : Bool :=
  ('0' ≤ c ∧ c ≤ '9') ∨ ('a' ≤ c ∧ c ≤ 'f') ∨ ('A' ≤ c ∧ c ≤ 'F')

def hexCharVal (c : Char) : Nat :=
  if '0' ≤ c ∧ c ≤ '9' then c.toNat - 48
  else if 'a' ≤ c ∧ c ≤ 'f' then c.toNat - 87
  else c.toNat - 55

/-- The inline hex-group scan of netip.parseIPv6: returns the group value,
the number of digits consumed, and the unconsumed remainder. -/
def scanHexGroup : List Char → Nat → Nat → Except String (Nat × Nat × List Char)
  | [], acc, off => .ok (acc, off, [])
  | c :: rest, acc, off =>
      if isHexChar c then
        let acc' := acc * 16 + hexCharVal c
        if off > 3 then .error "each group must have 4 or less digits"
        else if acc' > 65535 then .error "IPv6 field has value of 2 to the 16 or more"
        else scanHexGroup rest acc' (off + 1)
      else .ok (acc, off, c :: rest)

/-- The group loop of netip.parseIPv6.  State: remaining characters,
bytes written so far (i in the Go source is the length of acc), the
accumulated bytes and the ellipsis position.  Returns the accumulated
bytes, the final ellipsis position and the unconsumed remainder. -/
def parseIPv6Loop : Nat → List Char → List Nat → Option Nat →
    Except String (List Nat × Option Nat × List Char)
  | 0, _, _, _ =>
      -- unreachable: every iteration of the Go loop appends two bytes and
      -- the loop stops at sixteen, so nine iterations always suffice
      .error "out of fuel"
  | fuel + 1, s, acc, ellipsis =>
  if 16 ≤ acc.length then .ok (acc, ellipsis, s)
  else
    match scanHexGroup s 0 0 with
    | .error e => .error e
    | .ok (v, off, rest) =>
      if off = 0 then .error "each colon-separated field must have at least one digit"
      else
        -- trailing embedded IPv4: the next unconsumed character is a dot
        if rest ≠ [] ∧ rest.head? = some '.' then
          if ellipsis = none ∧ acc.length ≠ 12 then
            .error "embedded IPv4 address must replace the final 2 fields of the address"
          else if acc.length + 4 > 16 then
            .error "too many hex fields to fit an embedded IPv4 at the end of the address"
          else
            match parseIPv4 ⟨s⟩ with
            | .error e => .error e
            | .ok a4 =>
                let b0 := a4.val / 16777216 % 256
                let b1 := a4.val / 65536 % 256
                let b2 := a4.val / 256 % 256
                let b3 := a4.val % 256
                .ok (acc ++ [b0, b1, b2, b3], ellipsis, [])
        else
          let acc' := acc ++ [v / 256, v % 256]
          match rest with
          | [] => .ok (acc', ellipsis, [])
          | c :: rest' =>
            if c ≠ ':' then .error "unexpected character, want colon"
            else if rest' = [] then .error "colon must be followed by more characters"
            else
              match rest' with
              | [] => .error "colon must be followed by more characters"
              | c' :: rest'' =>
                if c' = ':' then
                  if ellipsis ≠ none then .error "multiple double colons in address"
                  else if rest'' = [] then .ok (acc', some acc'.length, [])
                  else parseIPv6Loop fuel rest'' acc' (some acc'.length)
                else parseIPv6Loop fuel rest' acc' ellipsis

/-- netip.parseIPv6. -/
def parseIPv6 (inStr : String) : Except String Addr :=
  -- split off the zone at the first percent sign
  let cs := inStr.data
  let zoneSplit : List Char × String :=
    match firstIndexOf cs '%' with
    | none => (cs, "")
    | some i => (cs.take i, ⟨cs.drop (i + 1)⟩)
  let s := zoneSplit.1
  let zone := zoneSplit.2
  if (firstIndexOf cs '%').isSome ∧ zone = "" then
    .error "zone must be a non-empty string"
  else
    -- leading double colon
    let lead : Option Nat × List Char :=
      match s with
      | ':' :: ':' :: rest => (some 0, rest)
      | _ => (none, s)
    if lead.2 = [] ∧ lead.1 = some 0 then
      .ok ⟨false, 0, zone⟩
    else
      match parseIPv6Loop 9 lead.2 [] lead.1 with
      | .error e => .error e
      | .ok (bytes, ell, sRem) =>
          if sRem ≠ [] then .error "trailing garbage after address"
          else if bytes.length < 16 then
            match ell with
            | none => .error "address string too short"
            | some e =>
                let n := 16 - bytes.length
                let full := bytes.take e ++ List.replicate n 0 ++ bytes.drop e
                .ok ⟨false, full.foldl (fun acc b => acc * 256 + b) 0, zone⟩
          else if ell ≠ none then
            .error "the double colon must expand to at least one field of zeros"
          else
            .ok ⟨false, bytes.foldl (fun acc b => acc * 256 + b) 0, zone⟩

/-- The dispatch loop of netip.ParseAddr: the first special character
decides the address family. -/
def classifyAddr : List Char → Except String Bool
  | [] => .error "unable to parse IP"
  | c :: rest =>
      if c = '.' then .ok true
      else if c = ':' then .ok false
      else if c = '%' then .error "missing IPv6 address"
      else classifyAddr rest

/-- netip.ParseAddr. -/
def goParseAddr (s : String) : Except String Addr :=
  match classifyAddr s.data with
  | .error e => .error ("ParseAddr(" ++ s ++ "): " ++ e)
  | .ok true =>
      match parseIPv4 s with
      | .error e => .error ("ParseAddr(" ++ s ++ "): " ++ e)
      | .ok a => .ok a
  | .ok false =>
      match parseIPv6 s with
      | .error e => .error ("ParseAddr(" ++ s ++ "): " ++ e)
      | .ok a => .ok a

/-! ## net/netip network model (netip.Prefix) -/

structure IPNet where
  addr : Addr
  bits : Nat
deriving Repr, DecidableEq

/-- strconv.Atoi restricted to the non-negative numbers that can denote a
prefix length (an optional plus sign followed by decimal digits). -/
def parseBitsStr (cs : List Char) : Except String Nat :=
  let digits := match cs with
    | '+' :: rest => rest
    | _ => cs
  if digits = [] ∨ ¬ digits.all (fun c => '0' ≤ c ∧ c ≤ '9') then
    .error "bad bits after slash"
  else
    .ok (digits.foldl (fun acc c => acc * 10 + (c.toNat - 48)) 0)

/-- netip.ParsePrefix. -/
def parseIPNet (s : String) : Except String IPNet :=
  match lastIndexOf s.data '/' with
  | none => .error "netip.ParsePrefix: no slash"
  | some i =>
      match goParseAddr ⟨s.data.take i⟩ with
      | .error e => .error e
      | .ok ip =>
          if ip.zone ≠ "" then .error "netip.ParsePrefix: prefixes cannot contain zones"
          else
            match parseBitsStr (s.data.drop (i + 1)) with
            | .error e => .error e
            | .ok bits =>
                if bits > ip.bitLen then .error "netip.ParsePrefix: prefix length out of range"
                else .ok ⟨ip, bits⟩

/-- mask6 of net/netip: the 128-bit mask whose top n bits are set. -/
def mask6 (n : Nat) : Nat := (2 ^ 128 - 2 ^ (128 - n))

/-- netip.Prefix.Contains. -/
def ipNetContains (p : IPNet) (ip : Addr) : Bool :=
  if p.bits > p.addr.bitLen ∨ ip.zone ≠ "" then false
  else if p.addr.is4 ≠ ip.is4 then false
  else if ip.is4 then
    (ip.val ^^^ p.addr.val) >>> (32 - p.bits) = 0
  else
    (ip.val ^^^ p.addr.val) &&& mask6 p.bits = 0

/-! ## net.SplitHostPort -/

/-- net.SplitHostPort. -/
def goSplitHostPort (hostport : String) : Except String (String × String) :=
  let cs := hostport.data
  match lastIndexOf cs ':' with
  | none => .error "missing port in address"
  | some i =>
      if cs.head? = some '[' then
        match firstIndexOf cs ']' with
        | none => .error "missing right bracket in address"
        | some endIdx =>
            if endIdx + 1 = cs.length then .error "missing port in address"
            else if endIdx + 1 = i then
              -- host is between the brackets, port after the last colon
              let host := ⟨(cs.take endIdx).drop 1⟩
              if (firstIndexOf (cs.drop 1) '[').isSome then .error "unexpected left bracket in host"
              else if (firstIndexOf (cs.drop (endIdx + 1)) ']').isSome then
                .error "unexpected right bracket in address"
              else .ok (host, ⟨cs.drop (i + 1)⟩)
            else if cs.get? (endIdx + 1) = some ':' then .error "too many colons in address"
            else .error "missing port in address"
      else
        let host := cs.take i
        if (firstIndexOf host ':').isSome then .error "too many colons in address"
        else if (firstIndexOf cs '[').isSome then .error "unexpected left bracket in host"
        else if (firstIndexOf cs ']').isSome then .error "unexpected right bracket in address"
        else .ok (⟨host⟩, ⟨cs.drop (i + 1)⟩)

/-! ## HTTP header model

http.Header.Get goes through textproto.CanonicalMIMEHeaderKey; headers
are modelled as association lists of (name, value) pairs and lookup
canonicalises both sides, which makes header lookup case-insensitive
exactly as in net/http. -/

/-- validHeaderFieldByte of net/textproto (token characters). -/
def validHeaderFieldChar (c : Char) : Bool :=
  ('0' ≤ c ∧ c ≤ '9') ∨ ('a' ≤ c ∧ c ≤ 'z') ∨ ('A' ≤ c ∧ c ≤ 'Z') ∨
    c ∈ (['!', '#', '$', '%', '&', '\'', '*', '+', '-', '.', '^', '_', '|', '~'] : List Char)

/-- The case-normalisation loop of textproto.CanonicalMIMEHeaderKey. -/
def canonChars : Bool → List Char → List Char
  | _, [] => []
  | upper, c :: rest =>
      let c' := if upper then asciiUpperChar c else asciiLowerChar c
      c' :: canonChars (c' = '-') rest

/-- textproto.CanonicalMIMEHeaderKey: invalid keys are returned
unchanged, valid keys get the canonical capitalisation. -/
def canonicalKey (s : String) : String :=
  if s.data.all validHeaderFieldChar then ⟨canonChars true s.data⟩ else s

/-- http.Header.Get. -/
def headerGet (h : List (String × String)) (key : String) : String :=
  match h.find? (fun kv => canonicalKey kv.1 = canonicalKey key) with
  | some kv => kv.2
  | none => ""

/-! ## The trust middleware (trustProxy and helpers) -/

def trustedIPs : List String :=
  ["192.168.0.0/16", "172.16.0.0/12", "10.0.0.0/8", "127.0.0.1/8", "fd00::/8", "::1"]

/-- parseIPs of the source: parses each entry, as a CIDR expression when
it contains a slash and as a single address otherwise.  The Go function
panics on a malformed entry; the panic branch is represented by skipping
(it is unreachable on the fixed trustedIPs list, on which every entry
parses). -/
def parseIPs (ips : List String) : Except String (List IPNet) :=
  ips.foldlM (fun acc ipStr =>
    if (firstIndexOf ipStr.data '/').isSome then
      match parseIPNet ipStr with
      | .error e => .error ("parsing CIDR expression: " ++ e)
      | .ok ipNet => .ok (acc ++ [ipNet])
    else
      match goParseAddr ipStr with
      | .error e => .error ("invalid IP address: " ++ ipStr ++ ": " ++ e)
      | .ok ipAddr => .ok (acc ++ [⟨ipAddr, ipAddr.bitLen⟩]))
    []

def parsedTrustedIPs : List IPNet :=
  match parseIPs trustedIPs with
  | .ok l => l
  | .error _ => []

def proxyIPHeaders : List String :=
  ["X-Envoy-External-Address", "X-Forwarded-For", "X-Real-IP", "True-Client-IP"]

def schemeHeaders : List String :=
  ["X-Forwarded-Proto", "X-Forwarded-Scheme"]

def xForwardedHost : String := "X-Forwarded-Host"

/-- isTrustedIP of the source: strips the port when the address has
host:port form, falls back to the whole string otherwise, then parses
the host and tests membership in the trusted networks. -/
def isTrustedIP (remoteAddr : String) (trusted : List IPNet) : Except String Bool :=
  let ipStr := match goSplitHostPort remoteAddr with
    | .ok hp => hp.1
    | .error _ => remoteAddr
  match goParseAddr ipStr with
  | .error e => .error e
  | .ok ipAddr => .ok (trusted.any (fun ipRange => ipNetContains ipRange ipAddr))

/-- getRealIP of the source: the first proxy header, in priority order,
with a non-empty value wins; its part before the first comma is
returned ("" when no header matches). -/
def getRealIPLoop (h : List (String × String)) : List String → String
  | [] => ""
  | name :: rest =>
      let value := headerGet h name
      if value ≠ "" then goSplitN2First value
      else getRealIPLoop h rest

def getRealIP (h : List (String × String)) : String :=
  getRealIPLoop h proxyIPHeaders

/-- getScheme of the source, embedded exactly as written: when a scheme
header with non-empty value is found, the accumulator variable (still
the empty string) is lower-cased and returned; the header value itself
is never assigned. -/
def getSchemeLoop (h : List (String × String)) (scheme : String) : List String → String
  | [] => scheme
  | name :: rest =>
      let value := headerGet h name
      if value ≠ "" then goToLower scheme
      else getSchemeLoop h scheme rest

def getScheme (h : List (String × String)) : String :=
  getSchemeLoop h "" schemeHeaders

/-! ## The trustProxy middleware -/

inductive AttrVal where
  | str (s : String)
  | int (n : Int)
  | dur (n : Int)
deriving Repr, DecidableEq

structure LogRecord where
  level : String
  msg : String
  attrs : List (String × AttrVal)
deriving Repr, DecidableEq

structure Request where
  remoteAddr : String
  host : String
  urlScheme : String
  header : List (String × String)
  method : String := ""
  path : String := ""
  userAgent : String := ""
deriving Repr, DecidableEq

/-- The observable outcome of the trustProxy middleware on one request:
the log records it emits, the error response it writes itself
(status and body, from http.Error) if any, and the request it hands to
the next handler if it reaches it. -/
structure TrustOut where
  logs : List LogRecord
  errResponse : Option (Nat × String)
  nextReq : Option Request
deriving Repr, DecidableEq

/-- trustProxy of the source. -/
def trustProxy (r : Request) : TrustOut :=
  match isTrustedIP r.remoteAddr parsedTrustedIPs with
  | .error e =>
      { logs := [⟨"ERROR", e, [("ip", .str r.remoteAddr)]⟩],
        errResponse := some (500, e),
        nextReq := none }
  | .ok false =>
      { logs := [], errResponse := none, nextReq := some r }
  | .ok true =>
      let realIP := getRealIP r.header
      let r1 := if realIP ≠ "" then { r with remoteAddr := realIP } else r
      let host := headerGet r.header xForwardedHost
      let r2 := if host ≠ "" then { r1 with host := host } else r1
      let scheme := getScheme r.header
      let r3 := if scheme ≠ "" then { r2 with urlScheme := scheme } else r2
      { logs := [], errResponse := none, nextReq := some r3 }

/-! ## Characterisations of the trust helpers -/

/-- The first header of the given priority list whose value is non-empty
(stated from the spec's words, to compare getRealIP against). -/
def firstNonEmptyHeader (h : List (String × String)) : List String → Option String
  | [] => none
  | name :: rest =>
      if headerGet h name ≠ "" then some (headerGet h name)
      else firstNonEmptyHeader h rest

theorem getRealIPLoop_eq_firstNonEmpty (h : List (String × String)) (names : List String) :
    getRealIPLoop h names =
      match firstNonEmptyHeader h names with
      | some v => goSplitN2First v
      | none => "" := by
  induction names with
  | nil => rfl
  | cons name rest ih =>
      simp only [getRealIPLoop, firstNonEmptyHeader]
      by_cases hv : headerGet h name ≠ ""
      · simp [hv]
      · simp [hv, ih]

theorem getScheme_always_empty (h : List (String × String)) : getScheme h = "" := by
  simp only [getScheme, getSchemeLoop, goToLower]
  split <;> [rfl; skip]
  split <;> rfl

/-- The host portion isTrustedIP extracts from the peer address: the host
part when host:port splitting succeeds, the whole string otherwise
(bare-host tolerance). -/
def hostPortion (remoteAddr : String) : String :=
  match goSplitHostPort remoteAddr with
  | .ok hp => hp.1
  | .error _ => remoteAddr

theorem isTrustedIP_eq_parse_hostPortion (remoteAddr : String) (trusted : List IPNet) :
    isTrustedIP remoteAddr trusted =
      match goParseAddr (hostPortion remoteAddr) with
      | .error e => .error e
      | .ok ipAddr => .ok (trusted.any (fun ipRange => ipNetContains ipRange ipAddr)) := by
  simp only [isTrustedIP, hostPortion]

/-! ## Claim theorems: trust resolution -/

/-- C1: for every inbound request whose peer address is not contained in
any trusted network, trustProxy passes the request downstream with
client address, host and URL scheme exactly equal to their raw inbound
values, with no log and no error response; and the outcome is the same
pass-through whatever the forwarding headers are (no header is
consulted on this path). -/
theorem trustProxy_untrusted_passthrough (r : Request)
    (h : isTrustedIP r.remoteAddr parsedTrustedIPs = .ok false) :
    trustProxy r = { logs := [], errResponse := none, nextReq := some r } ∧
    ∀ hdr : List (String × String),
      trustProxy { r with header := hdr } =
        { logs := [], errResponse := none, nextReq := some { r with header := hdr } } := by
  constructor
  · simp [trustProxy, h]
  · intro hdr
    have h' : isTrustedIP ({ r with header := hdr } : Request).remoteAddr parsedTrustedIPs
        = .ok false := h
    simp [trustProxy, h']

/-- Witness for C1: a request from the public address 8.8.8.8 passes
through unchanged even though a forwarding header is present. -/
theorem trustProxy_untrusted_passthrough_witness :
    trustProxy { remoteAddr := "8.8.8.8:443", host := "h", urlScheme := "http",
                 header := [("X-Forwarded-For", "1.2.3.4")] } =
      { logs := [], errResponse := none,
        nextReq := some { remoteAddr := "8.8.8.8:443", host := "h", urlScheme := "http",
                          header := [("X-Forwarded-For", "1.2.3.4")] } } :=
  (trustProxy_untrusted_passthrough _ (by decide)).1

/-- C2: getScheme never returns a header value.  The loop lower-cases the
accumulator variable (still the empty string) instead of the header
value it found, so getScheme is constantly empty and trustProxy never
rewrites the URL scheme: a trusted request carrying
X-Forwarded-Proto HTTPS reaches the next handler with its original
scheme untouched, against the documented intent of normalising the
selected header value. -/
theorem getScheme_never_normalizes :
    (∀ h : List (String × String), getScheme h = "") ∧
    getScheme [("X-Forwarded-Proto", "HTTPS")] = "" ∧
    trustProxy { remoteAddr := "10.0.0.5:443", host := "internal", urlScheme := "http",
                 header := [("X-Forwarded-Proto", "HTTPS")] } =
      { logs := [], errResponse := none,
        nextReq := some { remoteAddr := "10.0.0.5:443", host := "internal", urlScheme := "http",
                          header := [("X-Forwarded-Proto", "HTTPS")] } } :=
  ⟨getScheme_always_empty, by decide, by decide⟩

/-- C3 counterexample: from the trusted peer 10.0.0.5, a proxy-IP header
whose value starts with a comma has the empty string before its first
comma; the claim then demands an empty effective client address, but
trustProxy leaves the original peer address in place. -/
theorem trustProxy_comma_first_counterexample :
    goSplitN2First (headerGet [("X-Forwarded-For", ",70.41.3.18")] "X-Forwarded-For") = "" ∧
    isTrustedIP "10.0.0.5:443" parsedTrustedIPs = .ok true ∧
    (trustProxy { remoteAddr := "10.0.0.5:443", host := "h", urlScheme := "http",
                  header := [("X-Forwarded-For", ",70.41.3.18")] }).nextReq =
      some { remoteAddr := "10.0.0.5:443", host := "h", urlScheme := "http",
             header := [("X-Forwarded-For", ",70.41.3.18")] } := by
  refine ⟨by decide, by decide, by decide⟩

/-- C3 (amended): for a trusted peer, when the first non-empty proxy-IP
header (in the fixed priority order) has value v and the part of v
before its first comma is non-empty, the request reaches the next
handler with that part as its client address. -/
theorem trustProxy_trusted_first_token (r : Request) (v : String)
    (htr : isTrustedIP r.remoteAddr parsedTrustedIPs = .ok true)
    (hv : firstNonEmptyHeader r.header proxyIPHeaders = some v)
    (hne : goSplitN2First v ≠ "") :
    ∃ r', (trustProxy r).nextReq = some r' ∧ r'.remoteAddr = goSplitN2First v := by
  have hreal : getRealIP r.header = goSplitN2First v := by
    rw [getRealIP, getRealIPLoop_eq_firstNonEmpty, hv]
  have hsch := getScheme_always_empty r.header
  by_cases hh : headerGet r.header xForwardedHost = ""
  · exact ⟨{ r with remoteAddr := goSplitN2First v },
      by simp [trustProxy, htr, hreal, hsch, hne, hh], rfl⟩
  · refine ⟨{ r with remoteAddr := goSplitN2First v
                     host := headerGet r.header xForwardedHost }, ?_, rfl⟩
    simp [trustProxy, htr, hreal, hsch, hne, hh]

/-- Witness for C3: the spec's own example, proxy-IP header value
"203.0.113.5, 70.41.3.18" from the trusted peer 10.0.0.5, resolves the
client address to "203.0.113.5". -/
theorem trustProxy_trusted_first_token_witness :
    ∃ r', (trustProxy { remoteAddr := "10.0.0.5:443", host := "h", urlScheme := "http",
                        header := [("X-Forwarded-For", "203.0.113.5, 70.41.3.18")] }).nextReq =
        some r' ∧ r'.remoteAddr = "203.0.113.5" := by
  obtain ⟨r', h1, h2⟩ :=
    trustProxy_trusted_first_token
      { remoteAddr := "10.0.0.5:443", host := "h", urlScheme := "http",
        header := [("X-Forwarded-For", "203.0.113.5, 70.41.3.18")] }
      "203.0.113.5, 70.41.3.18" (by decide) (by decide) (by decide)
  exact ⟨r', h1, by rw [h2]; decide⟩

/-- C4: isTrustedIP succeeds exactly when the host portion of the peer
address (the whole address when host:port splitting fails, which makes
the bare-host form tolerated) parses as an IPv4 or IPv6 address; and on
a parse failure trustProxy logs an error record carrying the offending
address, answers the request itself with status 500, and never hands
the request to the next handler. -/
theorem trustProxy_malformed_address (r : Request) :
    ((isTrustedIP r.remoteAddr parsedTrustedIPs).isOk
       = (goParseAddr (hostPortion r.remoteAddr)).isOk) ∧
    (∀ e, isTrustedIP r.remoteAddr parsedTrustedIPs = .error e →
       trustProxy r =
         { logs := [⟨"ERROR", e, [("ip", .str r.remoteAddr)]⟩],
           errResponse := some (500, e),
           nextReq := none }) := by
  constructor
  · rw [isTrustedIP_eq_parse_hostPortion]
    cases goParseAddr (hostPortion r.remoteAddr) <;> rfl
  · intro e he
    simp [trustProxy, he]

/-- Witness for C4: the unparsable peer address "nonsense" is rejected
with a 500 response and a log record naming it, while the bare-host
peer address "127.0.0.1" (no port) is accepted. -/
theorem trustProxy_malformed_address_witness :
    trustProxy { remoteAddr := "nonsense", host := "h", urlScheme := "http", header := [] } =
      { logs := [⟨"ERROR", "ParseAddr(nonsense): unable to parse IP",
                  [("ip", .str "nonsense")]⟩],
        errResponse := some (500, "ParseAddr(nonsense): unable to parse IP"),
        nextReq := none } ∧
    (isTrustedIP "127.0.0.1" parsedTrustedIPs).isOk = true :=
  ⟨(trustProxy_malformed_address
      { remoteAddr := "nonsense", host := "h", urlScheme := "http", header := [] }).2
      _ (by decide),
   by decide⟩

/-! ## github.com/google/uuid: Parse, String, and the request-id logic -/

/-- xvalues lookup of github.com/google/uuid: the value of a hex digit
character, 255 for anything else. -/
def xdigitVal (c : Char) : Nat :=
  if 48 ≤ c.toNat ∧ c.toNat ≤ 57 then c.toNat - 48
  else if 97 ≤ c.toNat ∧ c.toNat ≤ 102 then c.toNat - 87
  else if 65 ≤ c.toNat ∧ c.toNat ≤ 70 then c.toNat - 55
  else 255

/-- xtob of github.com/google/uuid: two hex characters to one byte, none
when either character is not a hex digit. -/
def xtob (x1 x2 : Char) : Option Nat :=
  if xdigitVal x1 ≠ 255 ∧ xdigitVal x2 ≠ 255 then
    some (xdigitVal x1 * 16 + xdigitVal x2)
  else none

/-- A UUID is its sixteen bytes. -/
def uuidWF (u : List Nat) : Prop := u.length = 16 ∧ ∀ b ∈ u, b < 256

instance (u : List Nat) : Decidable (uuidWF u) := by unfold uuidWF; infer_instance

/-- The byte-decoding loop of uuid.Parse: the listed character pairs are
decoded in order, with an early "invalid UUID format" return on the
first pair that is not two hex digits. -/
def parseHexPairs : List (Char × Char) → Except String (List Nat)
  | [] => .ok []
  | (x1, x2) :: rest =>
      match xtob x1 x2 with
      | none => .error "invalid UUID format"
      | some v =>
          match parseHexPairs rest with
          | .error e => .error e
          | .ok vs => .ok (v :: vs)

/-- The common tail of uuid.Parse for the hyphenated forms: checks the
four hyphen positions 8, 13, 18 and 23 and decodes the sixteen byte
positions; characters past index 35 are not inspected (exactly as in
the Go source, which never checks the trailing byte of the braced
form). -/
def parseHyphened : List Char → Except String (List Nat)
  | a0 :: a1 :: a2 :: a3 :: a4 :: a5 :: a6 :: a7 :: h0 ::
    b0 :: b1 :: b2 :: b3 :: h1 ::
    c0 :: c1 :: c2 :: c3 :: h2 ::
    d0 :: d1 :: d2 :: d3 :: h3 ::
    e0 :: e1 :: e2 :: e3 :: e4 :: e5 :: e6 :: e7 :: e8 :: e9 :: e10 :: e11 :: _ =>
      if h0 ≠ '-' ∨ h1 ≠ '-' ∨ h2 ≠ '-' ∨ h3 ≠ '-' then .error "invalid UUID format"
      else
        parseHexPairs [(a0, a1), (a2, a3), (a4, a5), (a6, a7),
                       (b0, b1), (b2, b3), (c0, c1), (c2, c3),
                       (d0, d1), (d2, d3),
                       (e0, e1), (e2, e3), (e4, e5), (e6, e7), (e8, e9), (e10, e11)]
  | _ => .error "invalid UUID format"

/-- The 32-character branch of uuid.Parse (no hyphens). -/
def parse32 : List Char → Except String (List Nat)
  | a0 :: a1 :: a2 :: a3 :: a4 :: a5 :: a6 :: a7 ::
    b0 :: b1 :: b2 :: b3 :: b4 :: b5 :: b6 :: b7 ::
    c0 :: c1 :: c2 :: c3 :: c4 :: c5 :: c6 :: c7 ::
    d0 :: d1 :: d2 :: d3 :: d4 :: d5 :: d6 :: d7 :: [] =>
      parseHexPairs [(a0, a1), (a2, a3), (a4, a5), (a6, a7),
                     (b0, b1), (b2, b3), (b4, b5), (b6, b7),
                     (c0, c1), (c2, c3), (c4, c5), (c6, c7),
                     (d0, d1), (d2, d3), (d4, d5), (d6, d7)]
  | _ => .error "invalid UUID format"

/-- strings.EqualFold on the ASCII strings this program compares. -/
def asciiEqualFold : List Char → List Char → Bool
  | [], [] => true
  | c :: cs, d :: ds => asciiLowerChar c = asciiLowerChar d && asciiEqualFold cs ds
  | _, _ => false

/-- uuid.Parse: dispatches on the length of the input (canonical 36,
urn-qualified 45, braced 38, bare-hex 32). -/
def uuidParse (s : String) : Except String (List Nat) :=
  let cs := s.data
  if cs.length = 36 then parseHyphened cs
  else if cs.length = 45 then
    if asciiEqualFold (cs.take 9) ("urn:uuid:".data) then parseHyphened (cs.drop 9)
    else .error "invalid urn prefix"
  else if cs.length = 38 then parseHyphened (cs.drop 1)
  else if cs.length = 32 then parse32 cs
  else .error "invalid UUID length"

/-- hextable lookup of encoding/hex: lower-case hex digit of a value
below sixteen. -/
def hexTableChar (n : Nat) : Char :=
  if n < 10 then Char.ofNat (48 + n) else Char.ofNat (87 + n)

/-- hex.Encode of one byte. -/
def byteToHex (b : Nat) : List Char := [hexTableChar (b / 16), hexTableChar (b % 16)]

/-- uuid.UUID.String: the canonical lower-case hyphenated form
(8-4-4-4-12).  A Go UUID is a sixteen-byte array; the non-sixteen case
is unreachable. -/
def uuidString (u : List Nat) : String :=
  match u with
  | [b0, b1, b2, b3, b4, b5, b6, b7, b8, b9, b10, b11, b12, b13, b14, b15] =>
      ⟨byteToHex b0 ++ byteToHex b1 ++ byteToHex b2 ++ byteToHex b3 ++ ['-'] ++
       byteToHex b4 ++ byteToHex b5 ++ ['-'] ++
       byteToHex b6 ++ byteToHex b7 ++ ['-'] ++
       byteToHex b8 ++ byteToHex b9 ++ ['-'] ++
       byteToHex b10 ++ byteToHex b11 ++ byteToHex b12 ++ byteToHex b13 ++
       byteToHex b14 ++ byteToHex b15⟩
  | _ => ""

/-- The request-id computation of the per-request middleware: reuse the
inbound x-request-id header when uuid.Parse accepts it, re-encoded by
uuid.UUID.String; otherwise use the freshly generated random UUID
(uuid.NewString, whose random bytes are a parameter of the model). -/
def computeReqID (header : List (String × String)) (fresh : List Nat) : String :=
  match uuidParse (headerGet header "x-request-id") with
  | .ok id => uuidString id
  | .error _ => uuidString fresh

/-! ## UUID round-trip lemmas -/

theorem xdigitVal_lt_of_valid (c : Char) (h : xdigitVal c ≠ 255) : xdigitVal c < 16 := by
  unfold xdigitVal at h ⊢
  by_cases h1 : 48 ≤ c.toNat ∧ c.toNat ≤ 57
  · rw [if_pos h1] at h ⊢; omega
  · rw [if_neg h1] at h ⊢
    by_cases h2 : 97 ≤ c.toNat ∧ c.toNat ≤ 102
    · rw [if_pos h2] at h ⊢; omega
    · rw [if_neg h2] at h ⊢
      by_cases h3 : 65 ≤ c.toNat ∧ c.toNat ≤ 70
      · rw [if_pos h3] at h ⊢; omega
      · rw [if_neg h3] at h ⊢; omega

theorem xtob_lt (x1 x2 : Char) (v : Nat) (h : xtob x1 x2 = some v) : v < 256 := by
  unfold xtob at h
  split at h
  · rename_i hv
    have h1 := xdigitVal_lt_of_valid x1 hv.1
    have h2 := xdigitVal_lt_of_valid x2 hv.2
    simp only [Option.some.injEq] at h
    omega
  · simp at h

theorem xdigitVal_hexTableChar : ∀ x : Fin 16, xdigitVal (hexTableChar x.val) = x.val := by
  decide

theorem xtob_byteToHex (b : Nat) (hb : b < 256) :
    xtob (hexTableChar (b / 16)) (hexTableChar (b % 16)) = some b := by
  have h1 : b / 16 < 16 := by omega
  have h2 : b % 16 < 16 := by omega
  have e1 := xdigitVal_hexTableChar ⟨b / 16, h1⟩
  have e2 := xdigitVal_hexTableChar ⟨b % 16, h2⟩
  simp only at e1 e2
  unfold xtob
  rw [e1, e2]
  rw [if_pos (by omega)]
  congr 1
  omega

theorem parseHexPairs_wf (ps : List (Char × Char)) (vs : List Nat)
    (h : parseHexPairs ps = .ok vs) : vs.length = ps.length ∧ ∀ v ∈ vs, v < 256 := by
  induction ps generalizing vs with
  | nil =>
      simp only [parseHexPairs, Except.ok.injEq] at h
      subst h
      simp
  | cons p rest ih =>
      obtain ⟨x1, x2⟩ := p
      unfold parseHexPairs at h
      cases hx : xtob x1 x2 with
      | none => rw [hx] at h; simp at h
      | some v =>
          rw [hx] at h
          cases hrest : parseHexPairs rest with
          | error e => rw [hrest] at h; simp at h
          | ok vs' =>
              rw [hrest] at h
              simp only [Except.ok.injEq] at h
              subst h
              obtain ⟨hl, hv⟩ := ih vs' hrest
              refine ⟨by simp [hl], ?_⟩
              intro b hbmem
              rcases List.mem_cons.mp hbmem with rfl | hmem
              · exact xtob_lt _ _ _ hx
              · exact hv b hmem

theorem parseHexPairs_byteToHex (bs : List Nat) (hb : ∀ b ∈ bs, b < 256) :
    parseHexPairs (bs.map (fun b => (hexTableChar (b / 16), hexTableChar (b % 16)))) =
      .ok bs := by
  induction bs with
  | nil => rfl
  | cons b rest ih =>
      simp only [List.map_cons, parseHexPairs]
      rw [xtob_byteToHex b (hb b (by simp)), ih (fun v hv => hb v (by simp [hv]))]

theorem parseHyphened_wf (cs : List Char) (u : List Nat) (h : parseHyphened cs = .ok u) :
    uuidWF u := by
  unfold parseHyphened at h
  split at h
  · split at h
    · simp at h
    · have hwf := parseHexPairs_wf _ _ h
      exact ⟨by simpa using hwf.1, hwf.2⟩
  · simp at h

theorem parse32_wf (cs : List Char) (u : List Nat) (h : parse32 cs = .ok u) :
    uuidWF u := by
  unfold parse32 at h
  split at h
  · have hwf := parseHexPairs_wf _ _ h
    exact ⟨by simpa using hwf.1, hwf.2⟩
  · simp at h

theorem uuidParse_wf (s : String) (u : List Nat) (h : uuidParse s = .ok u) : uuidWF u := by
  simp only [uuidParse] at h
  split at h
  · exact parseHyphened_wf _ _ h
  · split at h
    · split at h
      · exact parseHyphened_wf _ _ h
      · simp at h
    · split at h
      · exact parseHyphened_wf _ _ h
      · split at h
        · exact parse32_wf _ _ h
        · simp at h

set_option maxHeartbeats 1600000 in
theorem uuidParse_uuidString_16
    (b0 b1 b2 b3 b4 b5 b6 b7 b8 b9 b10 b11 b12 b13 b14 b15 : Nat)
    (h0 : b0 < 256) (h1 : b1 < 256) (h2 : b2 < 256) (h3 : b3 < 256)
    (h4 : b4 < 256) (h5 : b5 < 256) (h6 : b6 < 256) (h7 : b7 < 256)
    (h8 : b8 < 256) (h9 : b9 < 256) (h10 : b10 < 256) (h11 : b11 < 256)
    (h12 : b12 < 256) (h13 : b13 < 256) (h14 : b14 < 256) (h15 : b15 < 256) :
    uuidParse (uuidString [b0, b1, b2, b3, b4, b5, b6, b7, b8, b9, b10, b11, b12, b13, b14, b15])
      = .ok [b0, b1, b2, b3, b4, b5, b6, b7, b8, b9, b10, b11, b12, b13, b14, b15] := by
  have hdata : (uuidString [b0, b1, b2, b3, b4, b5, b6, b7, b8, b9, b10,
      b11, b12, b13, b14, b15]).data =
      [hexTableChar (b0 / 16),
       hexTableChar (b0 % 16),
       hexTableChar (b1 / 16),
       hexTableChar (b1 % 16),
       hexTableChar (b2 / 16),
       hexTableChar (b2 % 16),
       hexTableChar (b3 / 16),
       hexTableChar (b3 % 16),
       '-',
       hexTableChar (b4 / 16),
       hexTableChar (b4 % 16),
       hexTableChar (b5 / 16),
       hexTableChar (b5 % 16),
       '-',
       hexTableChar (b6 / 16),
       hexTableChar (b6 % 16),
       hexTableChar (b7 / 16),
       hexTableChar (b7 % 16),
       '-',
       hexTableChar (b8 / 16),
       hexTableChar (b8 % 16),
       hexTableChar (b9 / 16),
       hexTableChar (b9 % 16),
       '-',
       hexTableChar (b10 / 16),
       hexTableChar (b10 % 16),
       hexTableChar (b11 / 16),
       hexTableChar (b11 % 16),
       hexTableChar (b12 / 16),
       hexTableChar (b12 % 16),
       hexTableChar (b13 / 16),
       hexTableChar (b13 % 16),
       hexTableChar (b14 / 16),
       hexTableChar (b14 % 16),
       hexTableChar (b15 / 16),
       hexTableChar (b15 % 16)] := by
    simp [uuidString, byteToHex]
  unfold uuidParse
  rw [hdata]
  rw [if_pos (by simp)]
  simp only [parseHyphened]
  rw [if_neg (by simp)]
  rw [show [(hexTableChar (b0 / 16), hexTableChar (b0 % 16)),
            (hexTableChar (b1 / 16), hexTableChar (b1 % 16)),
            (hexTableChar (b2 / 16), hexTableChar (b2 % 16)),
            (hexTableChar (b3 / 16), hexTableChar (b3 % 16)),
            (hexTableChar (b4 / 16), hexTableChar (b4 % 16)),
            (hexTableChar (b5 / 16), hexTableChar (b5 % 16)),
            (hexTableChar (b6 / 16), hexTableChar (b6 % 16)),
            (hexTableChar (b7 / 16), hexTableChar (b7 % 16)),
            (hexTableChar (b8 / 16), hexTableChar (b8 % 16)),
            (hexTableChar (b9 / 16), hexTableChar (b9 % 16)),
            (hexTableChar (b10 / 16), hexTableChar (b10 % 16)),
            (hexTableChar (b11 / 16), hexTableChar (b11 % 16)),
            (hexTableChar (b12 / 16), hexTableChar (b12 % 16)),
            (hexTableChar (b13 / 16), hexTableChar (b13 % 16)),
            (hexTableChar (b14 / 16), hexTableChar (b14 % 16)),
            (hexTableChar (b15 / 16), hexTableChar (b15 % 16))] =
        ([b0, b1, b2, b3, b4, b5, b6, b7, b8, b9, b10, b11, b12, b13, b14, b15].map
          (fun b => (hexTableChar (b / 16), hexTableChar (b % 16)))) from by simp]
  exact parseHexPairs_byteToHex _ (by
    intro b hb
    simp only [List.mem_cons, List.not_mem_nil, or_false] at hb
    rcases hb with rfl | rfl | rfl | rfl | rfl | rfl | rfl | rfl |
      rfl | rfl | rfl | rfl | rfl | rfl | rfl | rfl <;> assumption)

theorem uuidParse_uuidString (u : List Nat) (hwf : uuidWF u) :
    uuidParse (uuidString u) = .ok u := by
  obtain ⟨hlen, hb⟩ := hwf
  rcases u with _ | ⟨b0, u⟩; · simp at hlen
  rcases u with _ | ⟨b1, u⟩; · simp at hlen
  rcases u with _ | ⟨b2, u⟩; · simp at hlen
  rcases u with _ | ⟨b3, u⟩; · simp at hlen
  rcases u with _ | ⟨b4, u⟩; · simp at hlen
  rcases u with _ | ⟨b5, u⟩; · simp at hlen
  rcases u with _ | ⟨b6, u⟩; · simp at hlen
  rcases u with _ | ⟨b7, u⟩; · simp at hlen
  rcases u with _ | ⟨b8, u⟩; · simp at hlen
  rcases u with _ | ⟨b9, u⟩; · simp at hlen
  rcases u with _ | ⟨b10, u⟩; · simp at hlen
  rcases u with _ | ⟨b11, u⟩; · simp at hlen
  rcases u with _ | ⟨b12, u⟩; · simp at hlen
  rcases u with _ | ⟨b13, u⟩; · simp at hlen
  rcases u with _ | ⟨b14, u⟩; · simp at hlen
  rcases u with _ | ⟨b15, u⟩; · simp at hlen
  rcases u with _ | ⟨b16, u⟩
  · simp only [List.mem_cons, List.not_mem_nil, or_false] at hb
    exact uuidParse_uuidString_16 b0 b1 b2 b3 b4 b5 b6 b7 b8 b9 b10 b11 b12 b13 b14 b15
      (hb b0 (by tauto)) (hb b1 (by tauto)) (hb b2 (by tauto)) (hb b3 (by tauto))
      (hb b4 (by tauto)) (hb b5 (by tauto)) (hb b6 (by tauto)) (hb b7 (by tauto))
      (hb b8 (by tauto)) (hb b9 (by tauto)) (hb b10 (by tauto)) (hb b11 (by tauto))
      (hb b12 (by tauto)) (hb b13 (by tauto)) (hb b14 (by tauto)) (hb b15 (by tauto))
  · simp at hlen

theorem uuidString_injective (u v : List Nat) (hu : uuidWF u) (hv : uuidWF v)
    (h : uuidString u = uuidString v) : u = v := by
  have h1 := uuidParse_uuidString u hu
  have h2 := uuidParse_uuidString v hv
  rw [h] at h1
  rw [h1] at h2
  simpa using h2

/-! ## Claim theorems: request identity -/

/-- C5 counterexample: the inbound header value
6BA7B810-9DAD-11D1-80B4-00C04FD430C8 parses as a valid UUID, yet the
request id the middleware computes is the re-encoded lower-case form,
not the inbound value verbatim. -/
theorem computeReqID_not_verbatim :
    (uuidParse "6BA7B810-9DAD-11D1-80B4-00C04FD430C8").isOk = true ∧
    computeReqID [("X-Request-Id", "6BA7B810-9DAD-11D1-80B4-00C04FD430C8")]
        (List.replicate 16 0) = "6ba7b810-9dad-11d1-80b4-00c04fd430c8" ∧
    ("6ba7b810-9dad-11d1-80b4-00c04fd430c8" : String)
      ≠ "6BA7B810-9DAD-11D1-80B4-00C04FD430C8" :=
  ⟨by decide, by decide, by decide⟩

/-- C5 (amended): when the inbound x-request-id header parses as a UUID,
the computed request id is that UUID's canonical lower-case hyphenated
string (the inbound value verbatim only when the header is already in
that form); on parse failure the freshly generated UUID is used; the
request id always parses as a valid UUID again; and distinct generated
UUIDs yield distinct request ids. -/
theorem computeReqID_canonical (h : List (String × String)) (fresh : List Nat)
    (hwf : uuidWF fresh) :
    (∀ id, uuidParse (headerGet h "x-request-id") = .ok id →
        computeReqID h fresh = uuidString id) ∧
    (∀ e, uuidParse (headerGet h "x-request-id") = .error e →
        computeReqID h fresh = uuidString fresh) ∧
    (uuidParse (computeReqID h fresh)).isOk = true ∧
    (∀ f₂, uuidWF f₂ → fresh ≠ f₂ → uuidString fresh ≠ uuidString f₂) := by
  refine ⟨?_, ?_, ?_, ?_⟩
  · intro id hid
    simp [computeReqID, hid]
  · intro e he
    simp [computeReqID, he]
  · unfold computeReqID
    cases hp : uuidParse (headerGet h "x-request-id") with
    | ok id => rw [uuidParse_uuidString id (uuidParse_wf _ _ hp)]; rfl
    | error e => rw [uuidParse_uuidString fresh hwf]; rfl
  · intro f₂ hwf₂ hne heq
    exact hne (uuidString_injective fresh f₂ hwf hwf₂ heq)

/-- Witness for C5: with no identity header and the all-zero generated
UUID, the computed request id parses as a valid UUID, and a different
generated UUID gives a different id. -/
theorem computeReqID_canonical_witness :
    (uuidParse (computeReqID [] (List.replicate 16 0))).isOk = true ∧
    uuidString (List.replicate 16 0) ≠ uuidString (1 :: List.replicate 15 0) :=
  ⟨(computeReqID_canonical [] (List.replicate 16 0) (by decide)).2.2.1,
   (computeReqID_canonical [] (List.replicate 16 0) (by decide)).2.2.2
     (1 :: List.replicate 15 0) (by decide) (by decide)⟩

/-! ## Instrumented request body reader

The middleware installs http.MaxBytesReader(w, byteReadCloser(rawBody),
maxAllowedRequestBytes) as the request body.  The raw body is modelled
as a byte count with the standard reader behaviour (deliver
min(cap, remaining) bytes, report io.EOF once empty); byteReadCloser
and MaxBytesReader are embedded from their sources. -/

inductive ReadErr where
  | eof
  | maxBytes (limit : Nat)
  | other (msg : String)
deriving Repr, DecidableEq

/-- byteReadCloser.Read: forwards the wrapped reader's result unchanged
and adds the transferred byte count n (not the requested size) to the
counter. -/
def brcRead (counter : Nat) (res : Nat × Option ReadErr) : (Nat × Option ReadErr) × Nat :=
  (res, counter + res.1)

/-- One Read call on a raw body of the given size: n = min(cap,
remaining) bytes are delivered, EOF is reported once nothing remains.
Returns the result and the bytes still unread. -/
def rawRead (remaining cap : Nat) : (Nat × Option ReadErr) × Nat :=
  if remaining = 0 then ((0, some .eof), 0)
  else ((min cap remaining, none), remaining - min cap remaining)

structure BodyState where
  rawRemaining : Nat
  counter : Nat
  mbrRemaining : Nat
  mbrErr : Option ReadErr
  limit : Nat
deriving Repr, DecidableEq

/-- The body reader stack right after installation: nothing read yet,
MaxBytesReader still allows limit bytes. -/
def initBody (bodyBytes limit : Nat) : BodyState :=
  ⟨bodyBytes, 0, limit, none, limit⟩

/-- One Read call of cap bytes on the installed body:
http.MaxBytesReader.Read over byteReadCloser.Read over the raw body.
Follows the source of MaxBytesReader: sticky error; empty reads
allowed; the buffer is truncated to remaining+1 bytes; when the bytes
delivered stay within the remaining budget they are passed through and
the underlying error becomes sticky; otherwise only the remaining
budget is reported and a MaxBytesError carrying the limit is returned
and made sticky. -/
def bodyRead (cap : Nat) (s : BodyState) : (Nat × Option ReadErr) × BodyState :=
  match s.mbrErr with
  | some e => ((0, some e), s)
  | none =>
    if cap = 0 then ((0, none), s)
    else
      let cap' := if cap - 1 > s.mbrRemaining then s.mbrRemaining + 1 else cap
      let raw := rawRead s.rawRemaining cap'
      let brc := brcRead s.counter raw.1
      let n := brc.1.1
      let err := brc.1.2
      if n ≤ s.mbrRemaining then
        ((n, err),
         { rawRemaining := raw.2, counter := brc.2,
           mbrRemaining := s.mbrRemaining - n, mbrErr := err, limit := s.limit })
      else
        ((s.mbrRemaining, some (.maxBytes s.limit)),
         { rawRemaining := raw.2, counter := brc.2,
           mbrRemaining := 0, mbrErr := some (.maxBytes s.limit), limit := s.limit })

theorem bodyRead_full (B L : Nat) (hB : 0 < B) (hBL : B ≤ L) :
    bodyRead (B + 1) (initBody B L) = ((B, none), ⟨0, B, L - B, none, L⟩) := by
  unfold bodyRead initBody rawRead brcRead
  simp only
  rw [if_neg (show ¬(B + 1 = 0) by omega)]
  rw [if_neg (show ¬(B + 1 - 1 > L) by omega)]
  rw [if_neg (show ¬(B = 0) by omega)]
  rw [show min (B + 1) B = B from by omega]
  simp only
  rw [if_pos hBL]
  simp

theorem bodyRead_eof_after_full (B L cap : Nat) (hcap : 0 < cap) :
    bodyRead cap (⟨0, B, L - B, none, L⟩ : BodyState) =
      ((0, some .eof), ⟨0, B, L - B, some .eof, L⟩) := by
  unfold bodyRead rawRead brcRead
  simp only
  rw [if_neg (show ¬(cap = 0) by omega)]
  split
  · rw [if_pos (show 0 ≤ L - B by omega)]
    simp
  · next h => exact absurd trivial h

theorem bodyRead_overflow (B L cap : Nat) (hBL : L < B) (hcap : L + 2 ≤ cap) :
    bodyRead cap (initBody B L) =
      ((L, some (.maxBytes L)), ⟨B - (L + 1), L + 1, 0, some (.maxBytes L), L⟩) := by
  unfold bodyRead initBody rawRead brcRead
  simp only
  rw [if_neg (show ¬(cap = 0) by omega)]
  rw [if_pos (show cap - 1 > L by omega)]
  rw [if_neg (show ¬(B = 0) by omega)]
  rw [show min (L + 1) B = L + 1 from by omega]
  simp only
  rw [if_neg (show ¬(L + 1 ≤ L) by omega)]
  simp

/-- C6: the counting reader forwards every underlying result (count and
error) unchanged and adds exactly the transferred byte count to its
counter; fully consuming a B-byte body within the limit leaves the
counter at B with the EOF of the raw stream forwarded unchanged on the
following read; and a body larger than the configured maximum fails
with the payload-too-large error carrying the limit, the counter
holding exactly the bytes transferred before the abort. -/
theorem byteReadCloser_metrics (c n B L cap : Nat) (e : Option ReadErr) :
    (brcRead c (n, e) = ((n, e), c + n)) ∧
    (0 < B → B ≤ L →
      bodyRead (B + 1) (initBody B L) = ((B, none), ⟨0, B, L - B, none, L⟩) ∧
      bodyRead (B + 1) (bodyRead (B + 1) (initBody B L)).2 =
        ((0, some .eof), ⟨0, B, L - B, some .eof, L⟩)) ∧
    (L < B → L + 2 ≤ cap →
      bodyRead cap (initBody B L) =
        ((L, some (.maxBytes L)), ⟨B - (L + 1), L + 1, 0, some (.maxBytes L), L⟩)) := by
  refine ⟨rfl, fun hB hBL => ?_, bodyRead_overflow B L cap⟩
  refine ⟨bodyRead_full B L hB hBL, ?_⟩
  rw [bodyRead_full B L hB hBL]
  exact bodyRead_eof_after_full B L (B + 1) (by omega)

/-- Witness for C6: a five-byte body under a ten-byte limit counts five
bytes and then reports EOF; a twenty-byte body under a ten-byte limit
fails with the payload-too-large error after transferring eleven
bytes. -/
theorem byteReadCloser_metrics_witness :
    (bodyRead 6 (initBody 5 10) = ((5, none), ⟨0, 5, 5, none, 10⟩) ∧
     bodyRead 6 (bodyRead 6 (initBody 5 10)).2 = ((0, some .eof), ⟨0, 5, 5, some .eof, 10⟩)) ∧
    bodyRead 100 (initBody 20 10) =
      ((10, some (.maxBytes 10)), ⟨9, 11, 0, some (.maxBytes 10), 10⟩) :=
  ⟨(byteReadCloser_metrics 0 0 5 10 6 none).2.1 (by decide) (by decide),
   (byteReadCloser_metrics 0 0 20 10 100 none).2.2 (by decide) (by decide)⟩

/-! ## chi response writer wrapper and the per-request pipeline

middleware.NewWrapResponseWriter(w, 0) wraps the response writer in
chi's basicWriter; the per-request middleware of the repository builds
the request-scoped logger, installs the wrappers, runs the handler and
emits the completion record; middleware.Recoverer sits outermost and
intercepts panics through the attached log entry. -/

inductive WOp where
  | writeHeader (code : Nat)
  | write (n : Nat)
deriving Repr, DecidableEq

structure basicWriter where
  wroteHeader : Bool
  code : Nat
  bytes : Nat
deriving Repr, DecidableEq

/-- chi basicWriter.WriteHeader: only the first call records (and
forwards) a status code. -/
def bwWriteHeader (b : basicWriter) (code : Nat) : basicWriter :=
  if ¬ b.wroteHeader then { wroteHeader := true, code := code, bytes := b.bytes } else b

/-- chi basicWriter.maybeWriteHeader: a write with no explicit status
first records 200. -/
def bwMaybeWriteHeader (b : basicWriter) : basicWriter :=
  if ¬ b.wroteHeader then bwWriteHeader b 200 else b

/-- chi basicWriter.Write: ensures a status is recorded, forwards the
write and accumulates the bytes written (the underlying writer accepts
the full buffer). -/
def bwWrite (b : basicWriter) (n : Nat) : basicWriter :=
  let b' := bwMaybeWriteHeader b
  { b' with bytes := b'.bytes + n }

/-- The zero value produced by middleware.NewWrapResponseWriter: no
status recorded (code 0), no bytes. -/
def newBasicWriter : basicWriter := ⟨false, 0, 0⟩

/-- One writer call dispatched to the wrapper. -/
def bwStep (b : basicWriter) (op : WOp) : basicWriter :=
  match op with
  | .writeHeader c => bwWriteHeader b c
  | .write n => bwWrite b n

/-- The handler's interaction with the response writer, in order. -/
def runOps (ops : List WOp) : basicWriter :=
  ops.foldl bwStep newBasicWriter

/-- Total bytes the handler writes (stated from the claim's words, to
compare the wrapper's counter against). -/
def sumWrites : List WOp → Nat
  | [] => 0
  | .writeHeader _ :: rest => sumWrites rest
  | .write n :: rest => n + sumWrites rest

/-- The status the wrapper records: the code of the handler's first
status-setting event (an explicit WriteHeader, or 200 at a first
write), and 0 when the handler neither writes nor sets a status. -/
def firstStatus : List WOp → Nat
  | [] => 0
  | .writeHeader c :: _ => c
  | .write _ :: _ => 200

/-- The value a panic carries; http.ErrAbortHandler is the sentinel chi's
Recoverer deliberately ignores. -/
inductive PanicVal where
  | errAbortHandler
  | msg (s : String)
deriving Repr, DecidableEq

def panicValString : PanicVal → String
  | .errAbortHandler => "net/http: abort Handler"
  | .msg s => s

/-- What the downstream handler does with the request: its writer
operations, the read results its body reads obtain from the raw
stream, and whether it panics (after those effects). -/
structure HandlerSpec where
  ops : List WOp
  reads : List (Nat × Option ReadErr)
  panics : Option PanicVal
deriving Repr, DecidableEq

/-- The byteReadCloser counter after a sequence of underlying reads. -/
def brcRunReads (counter : Nat) (rs : List (Nat × Option ReadErr)) : Nat :=
  rs.foldl (fun c r => (brcRead c r).2) counter

/-- The completion record the per-request middleware emits: the
request-scoped logger attributes (reqId, traceId) followed by the
Info arguments in source order (the method attribute is repeated, as in
the source). -/
def completionRecord (reqID traceID : String) (r : Request) (ww : basicWriter)
    (br : Nat) (elapsed : Int) : LogRecord :=
  ⟨"INFO", "Request handled",
   [("reqId", .str reqID), ("traceId", .str traceID),
    ("method", .str r.method), ("method", .str r.method),
    ("path", .str r.path), ("ua", .str r.userAgent), ("ip", .str r.remoteAddr),
    ("bw", .int (ww.bytes : Int)), ("br", .int (br : Int)),
    ("status", .int (ww.code : Int)), ("duration", .dur elapsed)]⟩

/-- The record logEntry.Panic writes through the request-scoped
logger. -/
def panicRecord (reqID traceID : String) (v : PanicVal) (stack : String) : LogRecord :=
  ⟨"ERROR", "panic caught",
   [("reqId", .str reqID), ("traceId", .str traceID),
    ("panic", .str (panicValString v)), ("stack", .str stack)]⟩

structure PipelineOut where
  logs : List LogRecord
  recovererStatus : Option Nat
  ww : basicWriter
  reraised : Bool
deriving Repr, DecidableEq

/-- The observable behaviour of the middleware stack on one request that
has passed trust resolution: the per-request middleware derives the
request id and the scoped logger, installs the wrappers, runs the
handler, and emits the completion record only when the handler returns;
a panic unwinds past the completion log to middleware.Recoverer, which
recovers it, does nothing for http.ErrAbortHandler, and otherwise logs
one record through the attached log entry (logEntry.Panic, with the
captured stack) and writes status 500.  traceID comes from the active
span context, fresh is the random UUID uuid.NewString would build,
stack is the debug.Stack capture, elapsed the measured duration. -/
def runPipeline (traceID : String) (fresh : List Nat) (stack : String) (elapsed : Int)
    (r : Request) (h : HandlerSpec) : PipelineOut :=
  let reqID := computeReqID r.header fresh
  let ww := runOps h.ops
  let br := brcRunReads 0 h.reads
  match h.panics with
  | none =>
      { logs := [completionRecord reqID traceID r ww br elapsed],
        recovererStatus := none, ww := ww, reraised := false }
  | some v =>
      if v = .errAbortHandler then
        { logs := [], recovererStatus := none, ww := ww, reraised := false }
      else
        { logs := [panicRecord reqID traceID v stack],
          recovererStatus := some 500, ww := ww, reraised := false }

theorem bwStep_frozen (ops : List WOp) (b : basicWriter) (hb : b.wroteHeader = true) :
    ops.foldl bwStep b = { b with bytes := b.bytes + sumWrites ops } := by
  induction ops generalizing b with
  | nil => simp [sumWrites]
  | cons op rest ih =>
      cases op with
      | writeHeader c =>
          have hstep : bwStep b (.writeHeader c) = b := by
            simp [bwStep, bwWriteHeader, hb]
          simp only [List.foldl_cons, hstep, sumWrites]
          exact ih b hb
      | write n =>
          have hstep : bwStep b (.write n) = { b with bytes := b.bytes + n } := by
            simp [bwStep, bwWrite, bwMaybeWriteHeader, hb]
          simp only [List.foldl_cons, hstep, sumWrites]
          rw [ih { b with bytes := b.bytes + n } (by simp [hb])]
          simp [Nat.add_assoc]

theorem runOps_characterization (ops : List WOp) :
    (runOps ops).bytes = sumWrites ops ∧ (runOps ops).code = firstStatus ops := by
  cases ops with
  | nil => simp [runOps, sumWrites, firstStatus, newBasicWriter]
  | cons op rest =>
      cases op with
      | writeHeader c =>
          have hstep : bwStep newBasicWriter (.writeHeader c) = ⟨true, c, 0⟩ := by
            simp [bwStep, bwWriteHeader, newBasicWriter]
          simp only [runOps, List.foldl_cons, hstep]
          rw [bwStep_frozen rest ⟨true, c, 0⟩ rfl]
          simp [sumWrites, firstStatus]
      | write n =>
          have hstep : bwStep newBasicWriter (.write n) = ⟨true, 200, n⟩ := by
            simp [bwStep, bwWrite, bwMaybeWriteHeader, bwWriteHeader, newBasicWriter]
          simp only [runOps, List.foldl_cons, hstep]
          rw [bwStep_frozen rest ⟨true, 200, n⟩ rfl]
          simp [sumWrites, firstStatus]

/-! ## Claim theorems: recovery, completion log, response writer -/

/-- C7 counterexample: a downstream panic with value http.ErrAbortHandler
is recovered but deliberately ignored by the chi Recoverer: no error
record is logged and no fail-safe status is written, refuting the
claim's "for every request whose downstream handling panics". -/
theorem recoverer_abort_counterexample :
    runPipeline "" (List.replicate 16 0) "goroutine 1 stack" 7
        { remoteAddr := "1.2.3.4:5", host := "h", urlScheme := "http", header := [] }
        ⟨[], [], some .errAbortHandler⟩ =
      { logs := [], recovererStatus := none, ww := ⟨false, 0, 0⟩, reraised := false } := by
  decide

/-- C7 (amended): for every downstream panic whose value is not
http.ErrAbortHandler, the outermost stage recovers without re-raising,
logs exactly one structured error record carrying the request identity
(reqId, traceId), the panic value and the (non-empty) captured stack,
and writes the fail-safe status 500. -/
theorem recoverer_logs_panic (traceID : String) (fresh : List Nat) (stack : String)
    (elapsed : Int) (r : Request) (h : HandlerSpec) (v : PanicVal)
    (hp : h.panics = some v) (hv : v ≠ .errAbortHandler) (hs : stack ≠ "") :
    runPipeline traceID fresh stack elapsed r h =
      { logs := [⟨"ERROR", "panic caught",
          [("reqId", .str (computeReqID r.header fresh)), ("traceId", .str traceID),
           ("panic", .str (panicValString v)), ("stack", .str stack)]⟩],
        recovererStatus := some 500, ww := runOps h.ops, reraised := false } ∧
    stack ≠ "" := by
  refine ⟨?_, hs⟩
  simp [runPipeline, hp, hv, panicRecord]

/-- Witness for C7: a concrete panic out of the /panic route is logged
once with identity, value and stack, and answered with status 500. -/
theorem recoverer_logs_panic_witness :
    runPipeline "" (List.replicate 16 0) "goroutine 1 stack" 7
        { remoteAddr := "1.2.3.4:5", host := "h", urlScheme := "http", header := [] }
        ⟨[], [], some (.msg "testing panic recovery and logging")⟩ =
      { logs := [⟨"ERROR", "panic caught",
          [("reqId", .str "00000000-0000-0000-0000-000000000000"), ("traceId", .str ""),
           ("panic", .str "testing panic recovery and logging"),
           ("stack", .str "goroutine 1 stack")]⟩],
        recovererStatus := some 500, ww := ⟨false, 0, 0⟩, reraised := false } := by
  have h := (recoverer_logs_panic "" (List.replicate 16 0) "goroutine 1 stack" 7
      { remoteAddr := "1.2.3.4:5", host := "h", urlScheme := "http", header := [] }
      ⟨[], [], some (.msg "testing panic recovery and logging")⟩
      (.msg "testing panic recovery and logging") rfl (by decide) (by decide)).1
  rw [h]
  decide

/-- How many completion records a log stream carries. -/
def countCompletions (logs : List LogRecord) : Nat :=
  (logs.filter (fun rec => rec.msg == "Request handled")).length

/-- C8 counterexample: when the handler panics, the per-request
middleware's completion log line is skipped (it is not deferred and the
panic unwinds past it to the outermost Recoverer), so no completion
record is emitted, refuting "exactly one ... after the downstream
handler returns or panics". -/
theorem completion_log_panic_counterexample :
    countCompletions
      (runPipeline "" (List.replicate 16 0) "goroutine 1 stack" 7
        { remoteAddr := "1.2.3.4:5", host := "h", urlScheme := "http", header := [] }
        ⟨[.write 2], [(2, none)], some (.msg "boom")⟩).logs = 0 ∧
    (0 : Nat) ≠ 1 := by
  refine ⟨by decide, by decide⟩

/-- C8 (amended): exactly one completion record — with the method (twice,
as in the source), path, user agent, resolved client address, bytes
written, bytes read, recorded status and elapsed duration — is emitted
when the downstream handler returns normally; when the handler panics
no completion record is emitted (the recovery interceptor logs a panic
record instead). -/
theorem completion_log_once (traceID : String) (fresh : List Nat) (stack : String)
    (elapsed : Int) (r : Request) (h : HandlerSpec) :
    (h.panics = none →
      (runPipeline traceID fresh stack elapsed r h).logs =
        [completionRecord (computeReqID r.header fresh) traceID r (runOps h.ops)
          (brcRunReads 0 h.reads) elapsed] ∧
      countCompletions (runPipeline traceID fresh stack elapsed r h).logs = 1) ∧
    (∀ v, h.panics = some v →
      countCompletions (runPipeline traceID fresh stack elapsed r h).logs = 0) := by
  constructor
  · intro hnp
    constructor
    · simp [runPipeline, hnp]
    · simp [runPipeline, hnp, countCompletions, completionRecord]
  · intro v hp
    by_cases hv : v = .errAbortHandler
    · subst hv
      simp [runPipeline, hp, countCompletions]
    · simp [runPipeline, hp, hv, countCompletions, panicRecord]

/-- Witness for C8: a normal request through the /hi handler emits
exactly one completion record with all its fields. -/
theorem completion_log_once_witness :
    (runPipeline "" (List.replicate 16 0) "" 7
      { remoteAddr := "1.2.3.4:5", host := "h", urlScheme := "http", header := [],
        method := "GET", path := "/hi", userAgent := "curl" }
      ⟨[.write 2], [(0, some .eof)], none⟩).logs =
      [⟨"INFO", "Request handled",
        [("reqId", .str "00000000-0000-0000-0000-000000000000"), ("traceId", .str ""),
         ("method", .str "GET"), ("method", .str "GET"),
         ("path", .str "/hi"), ("ua", .str "curl"), ("ip", .str "1.2.3.4:5"),
         ("bw", .int 2), ("br", .int 0), ("status", .int 200), ("duration", .dur 7)]⟩] ∧
    countCompletions (runPipeline "" (List.replicate 16 0) "" 7
      { remoteAddr := "1.2.3.4:5", host := "h", urlScheme := "http", header := [],
        method := "GET", path := "/hi", userAgent := "curl" }
      ⟨[.write 2], [(0, some .eof)], none⟩).logs = 1 := by
  have h := completion_log_once "" (List.replicate 16 0) "" 7
      { remoteAddr := "1.2.3.4:5", host := "h", urlScheme := "http", header := [],
        method := "GET", path := "/hi", userAgent := "curl" }
      ⟨[.write 2], [(0, some .eof)], none⟩
  refine ⟨?_, (h.1 rfl).2⟩
  rw [(h.1 rfl).1]
  decide

/-- C9 counterexample: a handler that neither writes a body nor sets a
status leaves the wrapper's recorded status at its zero value 0, not
200; the completion record then carries status 0. -/
theorem wrapWriter_zero_status_counterexample :
    (runOps []).code = 0 ∧
    (runPipeline "" (List.replicate 16 0) "" 3
        { remoteAddr := "9.9.9.9:1", host := "h", urlScheme := "http", header := [] }
        ⟨[], [], none⟩).logs =
      [⟨"INFO", "Request handled",
        [("reqId", .str "00000000-0000-0000-0000-000000000000"), ("traceId", .str ""),
         ("method", .str ""), ("method", .str ""),
         ("path", .str ""), ("ua", .str ""), ("ip", .str "9.9.9.9:1"),
         ("bw", .int 0), ("br", .int 0), ("status", .int 0), ("duration", .dur 3)]⟩] ∧
    (0 : Nat) ≠ 200 := by
  refine ⟨by decide, by decide, by decide⟩

/-- C9 (amended): the wrapper records the code of the handler's first
status-setting event — an explicit WriteHeader, or the default 200 at a
first body write that precedes any WriteHeader — and 0 when the handler
never writes nor sets a status; its byte counter accumulates the bytes
of every write; and the completion record's status and bw fields equal
the recorded status and byte total. -/
theorem wrapWriter_status_bytes (ops : List WOp) (traceID : String) (fresh : List Nat)
    (stack : String) (elapsed : Int) (r : Request) (h : HandlerSpec)
    (hnp : h.panics = none) :
    (runOps ops).bytes = sumWrites ops ∧
    (runOps ops).code = firstStatus ops ∧
    (runPipeline traceID fresh stack elapsed r h).logs =
      [completionRecord (computeReqID r.header fresh) traceID r (runOps h.ops)
        (brcRunReads 0 h.reads) elapsed] ∧
    ("status", AttrVal.int ((runOps h.ops).code : Int)) ∈
      (completionRecord (computeReqID r.header fresh) traceID r (runOps h.ops)
        (brcRunReads 0 h.reads) elapsed).attrs ∧
    ("bw", AttrVal.int ((runOps h.ops).bytes : Int)) ∈
      (completionRecord (computeReqID r.header fresh) traceID r (runOps h.ops)
        (brcRunReads 0 h.reads) elapsed).attrs := by
  refine ⟨(runOps_characterization ops).1, (runOps_characterization ops).2, ?_, ?_, ?_⟩
  · simp [runPipeline, hnp]
  · simp [completionRecord]
  · simp [completionRecord]

/-- Witness for C9: a handler that writes three then four bytes without
an explicit status is recorded as 200 with seven bytes. -/
theorem wrapWriter_status_bytes_witness :
    (runOps [.write 3, .write 4]).bytes = 7 ∧
    (runOps [.write 3, .write 4]).code = 200 := by
  have h := wrapWriter_status_bytes [.write 3, .write 4] "" (List.replicate 16 0) "" 0
      { remoteAddr := "1.2.3.4:5", host := "h", urlScheme := "http", header := [] }
      ⟨[], [], none⟩ rfl
  exact ⟨by rw [h.1]; decide, by rw [h.2.1]; decide⟩

/-! ## Lifecycle coordinator: the post-signal shutdown sequence

After the termination signal, main builds a context carrying the
configured shutdown deadline, calls srv.Shutdown(ctx) (which stops
accepting new connections and waits for in-flight requests; when the
deadline expires first it returns the context's error without the
telemetry phase ever running), then otelShutdown(ctx).  The outcomes of
the two blocking calls are the inputs of the model; a deadline expiry
surfaces as the error "context deadline exceeded" from srv.Shutdown. -/

structure ShutdownOut where
  logs : List LogRecord
  exitCode : Nat
  otelCalled : Bool
deriving Repr, DecidableEq

/-- The shutdown tail of main: a shutdown failure is logged and exits 1
before telemetry teardown is ever invoked; a teardown failure is logged
and exits 1; otherwise main returns and the process exits 0. -/
def shutdownSequence (srvShutdownRes : Option String) (otelShutdownRes : Option String) :
    ShutdownOut :=
  match srvShutdownRes with
  | some e => ⟨[⟨"ERROR", "Server shutdown", [("error", .str e)]⟩], 1, false⟩
  | none =>
      match otelShutdownRes with
      | some e => ⟨[⟨"ERROR", "Open telemetry shutdown", [("error", .str e)]⟩], 1, true⟩
      | none => ⟨[], 0, true⟩

/-- C10 counterexample: when srv.Shutdown fails — in particular when the
deadline expires with connections still in flight and it returns
"context deadline exceeded" — the process logs and exits 1 immediately:
telemetry teardown is never invoked, refuting "... and only then
invokes telemetry teardown". -/
theorem shutdownSequence_timeout_counterexample :
    shutdownSequence (some "context deadline exceeded") none =
      ⟨[⟨"ERROR", "Server shutdown", [("error", .str "context deadline exceeded")]⟩], 1, false⟩ ∧
    (shutdownSequence (some "context deadline exceeded") none).otelCalled = false :=
  ⟨rfl, rfl⟩

/-- C10 (amended): upon the termination signal the coordinator stops
accepting new connections and waits for in-flight requests up to the
configured deadline (srv.Shutdown under the deadline context); if that
phase fails — including deadline expiry — the error is logged and the
process exits 1 without invoking telemetry teardown; if it succeeds,
telemetry teardown runs under the same deadline, a teardown failure is
logged with exit 1, and clean completion of both phases exits 0. -/
theorem shutdownSequence_spec (e : String) (otelRes : Option String) :
    (shutdownSequence none none = ⟨[], 0, true⟩) ∧
    (shutdownSequence (some e) otelRes =
      ⟨[⟨"ERROR", "Server shutdown", [("error", .str e)]⟩], 1, false⟩) ∧
    (shutdownSequence none (some e) =
      ⟨[⟨"ERROR", "Open telemetry shutdown", [("error", .str e)]⟩], 1, true⟩) :=
  ⟨rfl, rfl, rfl⟩
